import Mathlib

/-!
Shallow embedding of `src/converge-optimization/ortools-sys/wrapper.cc`
(and its header `wrapper.h`): a C FFI wrapper over two solver engines,
a discrete CP-SAT model builder and a linear/MIP `MPSolver`.

Modelling conventions:
* C `int32_t` results of `static_cast<int32_t>(vec.size())` are modelled by
  `int32ofNat`, two's-complement wraparound into `[-2^31, 2^31)`.
* C `double` values (bounds, coefficients, time limits, objective values)
  are modelled as exact rationals `Rat`; only comparisons and exact casts
  are performed on them in the wrapper, no rounding arithmetic.
* `const char*` arguments are modelled as `Option String` (`none` = NULL).
* The two solving engines are opaque external collaborators: a solve call
  takes the engine as an explicit function argument.  Engine *builder*
  entry points called by the wrapper (`NewIntVar`, `AddLessOrEqual`,
  `Minimize`, `MakeNumVar`, `MakeRowConstraint`, ...) are modelled by their
  documented effect: appending a variable / constraint record to, or
  setting the objective of, the accumulated model state.
* Native status codes are open integer codes (C enums may carry any
  value), modelled as `Nat`, with the named codes as constants taken from
  the engines' enum declarations.
-/

/-- The shared status vocabulary `OrtoolsStatus` from `wrapper.h`. -/
inductive OrtoolsStatus where
  | UNKNOWN
  | OPTIMAL
  | FEASIBLE
  | INFEASIBLE
  | UNBOUNDED
  | MODEL_INVALID
  | ERROR
deriving DecidableEq, Repr

/-- Native discrete-engine code `CpSolverStatus::UNKNOWN`. -/
def CP_UNKNOWN : Nat := 0
/-- Native discrete-engine code `CpSolverStatus::MODEL_INVALID`. -/
def CP_MODEL_INVALID : Nat := 1
/-- Native discrete-engine code `CpSolverStatus::FEASIBLE`. -/
def CP_FEASIBLE : Nat := 2
/-- Native discrete-engine code `CpSolverStatus::INFEASIBLE`. -/
def CP_INFEASIBLE : Nat := 3
/-- Native discrete-engine code `CpSolverStatus::OPTIMAL`. -/
def CP_OPTIMAL : Nat := 4

/-- Native linear-engine code `MPSolver::OPTIMAL`. -/
def MP_OPTIMAL : Nat := 0
/-- Native linear-engine code `MPSolver::FEASIBLE`. -/
def MP_FEASIBLE : Nat := 1
/-- Native linear-engine code `MPSolver::INFEASIBLE`. -/
def MP_INFEASIBLE : Nat := 2
/-- Native linear-engine code `MPSolver::UNBOUNDED`. -/
def MP_UNBOUNDED : Nat := 3

/-- `convert_cp_status` (wrapper.cc lines 41-54): switch over the native
discrete-engine status, `default:` returning `UNKNOWN`. -/
def convert_cp_status (s : Nat) : OrtoolsStatus :=
  if s = CP_OPTIMAL then .OPTIMAL
  else if s = CP_FEASIBLE then .FEASIBLE
  else if s = CP_INFEASIBLE then .INFEASIBLE
  else if s = CP_MODEL_INVALID then .MODEL_INVALID
  else .UNKNOWN

/-- `convert_lp_status` (wrapper.cc lines 56-69): switch over the native
linear-engine status, `default:` returning `ERROR`. -/
def convert_lp_status (s : Nat) : OrtoolsStatus :=
  if s = MP_OPTIMAL then .OPTIMAL
  else if s = MP_FEASIBLE then .FEASIBLE
  else if s = MP_INFEASIBLE then .INFEASIBLE
  else if s = MP_UNBOUNDED then .UNBOUNDED
  else .ERROR

/-- Two's-complement interpretation of a `size_t` value cast to `int32_t`,
as in `static_cast<int32_t>(model->vars.size())`. -/
def int32ofNat (n : Nat) : Int :=
  let r : Nat := n % 2 ^ 32
  if r < 2 ^ 31 then (r : Int) else (r : Int) - 2 ^ 32

theorem int32ofNat_of_lt {n : Nat} (h : n < 2 ^ 31) : int32ofNat n = n := by
  have h32 : n < 2 ^ 32 := lt_trans h (by norm_num)
  unfold int32ofNat
  rw [Nat.mod_eq_of_lt h32]
  have h31 : n < 2147483648 := by omega
  simp [h31]

/-- A variable record of the discrete engine's model proto: domain
`[lb, ub]` and display name (`""` = unnamed), as created by
`NewIntVar(Domain(lb, ub))` / `NewBoolVar()` and `WithName`. -/
structure CpProtoVar where
  lb : Int
  ub : Int
  name : String
deriving DecidableEq, Repr, Inhabited

/-- The discrete engine's `LinearExpr`, built term by term with
`expr += var * coeff`: a sequence of (proto variable index, coefficient)
terms. -/
def LinearExpr : Type := List (Nat × Int)

instance : DecidableEq LinearExpr := by unfold LinearExpr; infer_instance

instance : Repr LinearExpr := by unfold LinearExpr; infer_instance

instance : Inhabited LinearExpr := ⟨([] : List (Nat × Int))⟩

/-- Value of a `LinearExpr` under an assignment of proto variables. -/
def LinearExpr.eval (σ : Nat → Int) (e : LinearExpr) : Int :=
  (e.map fun t => t.2 * σ t.1).sum

/-- A constraint accumulated in the discrete engine's model builder. -/
inductive CpConstraint where
  | linearLe (e : LinearExpr) (rhs : Int)
  | linearGe (e : LinearExpr) (rhs : Int)
  | linearEq (e : LinearExpr) (rhs : Int)
  | allDifferent (vars : List Nat)
deriving DecidableEq, Repr

/-- The single objective slot of the discrete model (absent, minimize
or maximize a `LinearExpr`); `Minimize`/`Maximize` overwrite it. -/
inductive CpObjective where
  | noObjective
  | minimizeE (e : LinearExpr)
  | maximizeE (e : LinearExpr)
deriving DecidableEq, Repr

/-- State of `struct CpModelBuilder` (wrapper.cc lines 21-24): the
engine-side builder (`protoVars`, `constraints`, `objective`) together
with the wrapper's `std::vector<sat::IntVar> vars`, each entry storing
the proto index of the stored variable. -/
structure CpModelBuilderS where
  protoVars : List CpProtoVar
  constraints : List CpConstraint
  objective : CpObjective
  vars : List Nat
deriving DecidableEq, Repr

/-- `cpmodel_new` (wrapper.cc line 77): a fresh, empty builder. -/
def cpmodel_new : CpModelBuilderS :=
  { protoVars := [], constraints := [], objective := .noObjective, vars := [] }

/-- `cpmodel_new_int_var` (wrapper.cc lines 85-93): `NewIntVar(Domain(lb,
ub))` appends a proto variable; `if (name && name[0]) var.WithName(name)`
names it only when the C string is non-NULL and non-empty; the returned
handle is `static_cast<int32_t>(model->vars.size())` before the push. -/
def cpmodel_new_int_var (m : CpModelBuilderS) (lb ub : Int) (name : Option String) :
    CpModelBuilderS × Int :=
  let pv : CpProtoVar :=
    match name with
    | some s => if s = "" then { lb := lb, ub := ub, name := "" }
                else { lb := lb, ub := ub, name := s }
    | none => { lb := lb, ub := ub, name := "" }
  let protoIdx := m.protoVars.length
  let idx := int32ofNat m.vars.length
  ({ m with protoVars := m.protoVars ++ [pv], vars := m.vars ++ [protoIdx] }, idx)

/-- `cpmodel_new_bool_var` (wrapper.cc lines 95-104): `NewBoolVar()`
appends a proto variable with domain `[0, 1]`, named under the same
non-NULL non-empty condition; stored cast to `IntVar` in the same
wrapper vector, so boolean and integer handles share one index space. -/
def cpmodel_new_bool_var (m : CpModelBuilderS) (name : Option String) :
    CpModelBuilderS × Int :=
  let pv : CpProtoVar :=
    match name with
    | some s => if s = "" then { lb := 0, ub := 1, name := "" }
                else { lb := 0, ub := 1, name := s }
    | none => { lb := 0, ub := 1, name := "" }
  let protoIdx := m.protoVars.length
  let idx := int32ofNat m.vars.length
  ({ m with protoVars := m.protoVars ++ [pv], vars := m.vars ++ [protoIdx] }, idx)

/-- `build_linear_expr` (wrapper.cc lines 107-116): the loop
`for i in [0, num_vars): expr += model->vars[var_indices[i]] * coeffs[i]`.
Handles index the wrapper's `vars` vector (out-of-range access is
undefined behaviour in the C++; the embedding totalises it with `getD`,
and the theorems assume valid handles). -/
def build_linear_expr (m : CpModelBuilderS) (var_indices : List Int)
    (coeffs : List Int) : LinearExpr :=
  (var_indices.zip coeffs).map fun p => (m.vars.getD p.1.toNat 0, p.2)

/-- `cpmodel_add_linear_le` (wrapper.cc lines 118-125):
`AddLessOrEqual(build_linear_expr(...), rhs)`. -/
def cpmodel_add_linear_le (m : CpModelBuilderS) (var_indices : List Int)
    (coeffs : List Int) (rhs : Int) : CpModelBuilderS :=
  { m with constraints :=
      m.constraints ++ [.linearLe (build_linear_expr m var_indices coeffs) rhs] }

/-- `cpmodel_add_linear_ge` (wrapper.cc lines 127-134):
`AddGreaterOrEqual(build_linear_expr(...), rhs)`. -/
def cpmodel_add_linear_ge (m : CpModelBuilderS) (var_indices : List Int)
    (coeffs : List Int) (rhs : Int) : CpModelBuilderS :=
  { m with constraints :=
      m.constraints ++ [.linearGe (build_linear_expr m var_indices coeffs) rhs] }

/-- `cpmodel_add_linear_eq` (wrapper.cc lines 136-143):
`AddEquality(build_linear_expr(...), rhs)`. -/
def cpmodel_add_linear_eq (m : CpModelBuilderS) (var_indices : List Int)
    (coeffs : List Int) (rhs : Int) : CpModelBuilderS :=
  { m with constraints :=
      m.constraints ++ [.linearEq (build_linear_expr m var_indices coeffs) rhs] }

/-- `cpmodel_add_all_different` (wrapper.cc lines 145-154): collects
`model->vars[var_indices[i]]` and calls `AddAllDifferent`. -/
def cpmodel_add_all_different (m : CpModelBuilderS) (var_indices : List Int) :
    CpModelBuilderS :=
  { m with constraints :=
      m.constraints ++ [.allDifferent (var_indices.map fun h => m.vars.getD h.toNat 0)] }

/-- `cpmodel_minimize` (wrapper.cc lines 156-162): `Minimize(expr)`
overwrites the objective slot. -/
def cpmodel_minimize (m : CpModelBuilderS) (var_indices : List Int)
    (coeffs : List Int) : CpModelBuilderS :=
  { m with objective := .minimizeE (build_linear_expr m var_indices coeffs) }

/-- `cpmodel_maximize` (wrapper.cc lines 164-170): `Maximize(expr)`
overwrites the objective slot. -/
def cpmodel_maximize (m : CpModelBuilderS) (var_indices : List Int)
    (coeffs : List Int) : CpModelBuilderS :=
  { m with objective := .maximizeE (build_linear_expr m var_indices coeffs) }

/-- The engine parameters relevant to the wrapper: `SatParameters` with
`max_time_in_seconds` either set (by `set_max_time_in_seconds`) or left
at its unlimited default (`none`).  The C `double` is modelled as an
exact rational. -/
structure SatParameters where
  max_time_in_seconds : Option Rat
deriving DecidableEq, Repr

/-- The compiled model proto returned by `builder.Build()`: a snapshot of
the engine-side builder state (the wrapper's own `vars` vector is not
part of the proto). -/
structure CpModelProto where
  protoVars : List CpProtoVar
  constraints : List CpConstraint
  objective : CpObjective
deriving DecidableEq, Repr

/-- `CpModelBuilder::Build()`: snapshot the accumulated builder state. -/
def cpBuild (m : CpModelBuilderS) : CpModelProto :=
  { protoVars := m.protoVars, constraints := m.constraints, objective := m.objective }

/-- The engine's solve response: native status code, objective value (a
C `double`, modelled as an exact rational), per-variable solution and
wall time. -/
structure SatResponse where
  status : Nat
  objective_value : Rat
  solution : List Int
  wall_time : Rat
deriving DecidableEq, Repr

/-- State of `struct CpSolverResponse` (wrapper.cc lines 26-29): the
engine response plus the kept copy of the compiled model. -/
structure CpSolverResponseS where
  response : SatResponse
  model : CpModelProto
deriving DecidableEq, Repr

/-- The parameters assembled at the top of `cpmodel_solve` (wrapper.cc
lines 173-176): `set_max_time_in_seconds(t)` is called iff
`time_limit_seconds > 0`. -/
def cpSolveParams (time_limit_seconds : Rat) : SatParameters :=
  if time_limit_seconds > 0 then { max_time_in_seconds := some time_limit_seconds }
  else { max_time_in_seconds := none }

/-- `cpmodel_solve` (wrapper.cc lines 172-182): builds parameters, then
allocates a fresh result holding `model->builder.Build()` and the
engine's response `SolveWithParameters(result->model, params)`.  The
engine is an opaque external collaborator, passed as a function; the
first component of the result is the builder state after the call (the
C++ body never writes through `model`). -/
def cpmodel_solve (engine : CpModelProto → SatParameters → SatResponse)
    (m : CpModelBuilderS) (time_limit_seconds : Rat) :
    CpModelBuilderS × CpSolverResponseS :=
  let params := cpSolveParams time_limit_seconds
  let proto := cpBuild m
  (m, { response := engine proto params, model := proto })

/-- `cpresponse_status` (wrapper.cc lines 184-186). -/
def cpresponse_status (r : CpSolverResponseS) : OrtoolsStatus :=
  convert_cp_status r.response.status

/-- C++ `static_cast<int64_t>(double)`: truncation toward zero (defined
behaviour only when the truncated value fits in `int64_t`; the theorems
restrict to that range).  The double is modelled as an exact rational. -/
def truncRat (q : Rat) : Int := q.num.tdiv q.den

/-- `cpresponse_objective_value` (wrapper.cc lines 188-190):
`static_cast<int64_t>(response->response.objective_value())`. -/
def cpresponse_objective_value (r : CpSolverResponseS) : Int :=
  truncRat r.response.objective_value

/-- `cpresponse_value` (wrapper.cc lines 192-194):
`response->response.solution(var_index)`. -/
def cpresponse_value (r : CpSolverResponseS) (var_index : Int) : Int :=
  r.response.solution.getD var_index.toNat 0

/-- `cpresponse_wall_time` (wrapper.cc lines 196-198). -/
def cpresponse_wall_time (r : CpSolverResponseS) : Rat :=
  r.response.wall_time

/-- The backend problem types selected in `mpsolver_new`
(`MPSolver::OptimizationProblemType`). -/
inductive ProblemType where
  | GLOP_LINEAR_PROGRAMMING
  | CLP_LINEAR_PROGRAMMING
  | CBC_MIXED_INTEGER_PROGRAMMING
  | SCIP_MIXED_INTEGER_PROGRAMMING
deriving DecidableEq, Repr

/-- Selector code `ORTOOLS_LP_GLOP` (wrapper.h). -/
def ORTOOLS_LP_GLOP : Nat := 0
/-- Selector code `ORTOOLS_LP_CLP` (wrapper.h). -/
def ORTOOLS_LP_CLP : Nat := 1
/-- Selector code `ORTOOLS_MIP_CBC` (wrapper.h). -/
def ORTOOLS_MIP_CBC : Nat := 2
/-- Selector code `ORTOOLS_MIP_SCIP` (wrapper.h). -/
def ORTOOLS_MIP_SCIP : Nat := 3

/-- A variable owned by the linear solver (`MPVariable`): bounds (C
`double`, modelled as exact rationals), integrality, display name. -/
structure MPVariableS where
  lb : Rat
  ub : Rat
  isInteger : Bool
  name : String
deriving DecidableEq, Repr, Inhabited

/-- A row constraint owned by the linear solver (`MPConstraint`): bound
interval, name, and the coefficient map filled in by `SetCoefficient`
(association list keyed by variable handle; set, not accumulate). -/
structure MPConstraintS where
  lb : Rat
  ub : Rat
  name : String
  coeffs : List (Nat × Rat)
deriving DecidableEq, Repr, Inhabited

/-- State of `struct MpSolver` (wrapper.cc lines 31-35): the owned
`MPSolver` (name, problem type, objective) plus the wrapper's parallel
vectors of variables and constraints, which define the two handle
spaces. -/
structure MpSolverS where
  name : String
  problemType : ProblemType
  vars : List MPVariableS
  constraints : List MPConstraintS
  objectiveCoeffs : List (Nat × Rat)
  objectiveMaximize : Bool
deriving DecidableEq, Repr

/-- `mpsolver_new` (wrapper.cc lines 208-231): switch over the selector
with `default:` falling back to GLOP; a NULL name is replaced by
`"solver"`; construction always succeeds. -/
def mpsolver_new (name : Option String) (solver_type : Nat) : MpSolverS :=
  let problem_type :=
    if solver_type = ORTOOLS_LP_GLOP then ProblemType.GLOP_LINEAR_PROGRAMMING
    else if solver_type = ORTOOLS_LP_CLP then ProblemType.CLP_LINEAR_PROGRAMMING
    else if solver_type = ORTOOLS_MIP_CBC then ProblemType.CBC_MIXED_INTEGER_PROGRAMMING
    else if solver_type = ORTOOLS_MIP_SCIP then ProblemType.SCIP_MIXED_INTEGER_PROGRAMMING
    else ProblemType.GLOP_LINEAR_PROGRAMMING
  { name := name.getD "solver", problemType := problem_type,
    vars := [], constraints := [], objectiveCoeffs := [],
    objectiveMaximize := false }

/-- `mpsolver_num_var` (wrapper.cc lines 237-242): `MakeNumVar(lb, ub,
name ? name : "")`; handle is `static_cast<int32_t>(variables.size())`
before the push. -/
def mpsolver_num_var (s : MpSolverS) (lb ub : Rat) (name : Option String) :
    MpSolverS × Int :=
  let v : MPVariableS := { lb := lb, ub := ub, isInteger := false, name := name.getD "" }
  let idx := int32ofNat s.vars.length
  ({ s with vars := s.vars ++ [v] }, idx)

/-- `mpsolver_int_var` (wrapper.cc lines 244-249): `MakeIntVar(lb, ub,
name ? name : "")`. -/
def mpsolver_int_var (s : MpSolverS) (lb ub : Rat) (name : Option String) :
    MpSolverS × Int :=
  let v : MPVariableS := { lb := lb, ub := ub, isInteger := true, name := name.getD "" }
  let idx := int32ofNat s.vars.length
  ({ s with vars := s.vars ++ [v] }, idx)

/-- `mpsolver_bool_var` (wrapper.cc lines 251-256): `MakeBoolVar(name ?
name : "")`, an integer variable with bounds `[0, 1]`. -/
def mpsolver_bool_var (s : MpSolverS) (name : Option String) :
    MpSolverS × Int :=
  let v : MPVariableS := { lb := 0, ub := 1, isInteger := true, name := name.getD "" }
  let idx := int32ofNat s.vars.length
  ({ s with vars := s.vars ++ [v] }, idx)

/-- `mpsolver_add_constraint` (wrapper.cc lines 258-263):
`MakeRowConstraint(lb, ub, name ? name : "")` with initially empty
coefficients; handle is `static_cast<int32_t>(constraints.size())`
before the push (a parallel index space to variables). -/
def mpsolver_add_constraint (s : MpSolverS) (lb ub : Rat) (name : Option String) :
    MpSolverS × Int :=
  let c : MPConstraintS := { lb := lb, ub := ub, name := name.getD "", coeffs := [] }
  let idx := int32ofNat s.constraints.length
  ({ s with constraints := s.constraints ++ [c] }, idx)

/-- Overwrite semantics of `SetCoefficient` on an association list. -/
def setCoeffA (l : List (Nat × Rat)) (k : Nat) (c : Rat) : List (Nat × Rat) :=
  (l.filter fun p => p.1 ≠ k) ++ [(k, c)]

/-- `mpsolver_set_constraint_coeff` (wrapper.cc lines 265-267):
`constraints[constraint_idx]->SetCoefficient(variables[var_idx], coeff)`
(overwrite; out-of-range handles are undefined behaviour, totalised
with `getD`/`set`). -/
def mpsolver_set_constraint_coeff (s : MpSolverS) (constraint_idx var_idx : Int)
    (coeff : Rat) : MpSolverS :=
  let con := s.constraints.getD constraint_idx.toNat default
  let con2 : MPConstraintS := { con with coeffs := setCoeffA con.coeffs var_idx.toNat coeff }
  { s with constraints := s.constraints.set constraint_idx.toNat con2 }

/-- `mpsolver_set_objective_coeff` (wrapper.cc lines 269-271). -/
def mpsolver_set_objective_coeff (s : MpSolverS) (var_idx : Int) (coeff : Rat) :
    MpSolverS :=
  { s with objectiveCoeffs := setCoeffA s.objectiveCoeffs var_idx.toNat coeff }

/-- `mpsolver_minimize` (wrapper.cc lines 273-275). -/
def mpsolver_minimize (s : MpSolverS) : MpSolverS :=
  { s with objectiveMaximize := false }

/-- `mpsolver_maximize` (wrapper.cc lines 277-279). -/
def mpsolver_maximize (s : MpSolverS) : MpSolverS :=
  { s with objectiveMaximize := true }

/-- `mpsolver_solve` (wrapper.cc lines 281-283): invoke the opaque
backend in place and normalize its native status code. -/
def mpsolver_solve (engine : MpSolverS → Nat) (s : MpSolverS) : OrtoolsStatus :=
  convert_lp_status (engine s)

/-- One call into the discrete model builder's mutating interface. -/
inductive CpOp where
  | newIntVar (lb ub : Int) (name : Option String)
  | newBoolVar (name : Option String)
  | addLinearLe (var_indices : List Int) (coeffs : List Int) (rhs : Int)
  | addLinearGe (var_indices : List Int) (coeffs : List Int) (rhs : Int)
  | addLinearEq (var_indices : List Int) (coeffs : List Int) (rhs : Int)
  | addAllDifferent (var_indices : List Int)
  | setMinimize (var_indices : List Int) (coeffs : List Int)
  | setMaximize (var_indices : List Int) (coeffs : List Int)
deriving DecidableEq, Repr

/-- Whether a discrete-builder call is a variable-creation call. -/
def CpOp.creates : CpOp → Bool
  | .newIntVar _ _ _ => true
  | .newBoolVar _ => true
  | _ => false

/-- Execute one discrete-builder call; creation calls also return the
handle they hand back to the caller. -/
def CpOp.run : CpOp → CpModelBuilderS → CpModelBuilderS × Option Int
  | .newIntVar lb ub name, m =>
      ((cpmodel_new_int_var m lb ub name).1, some (cpmodel_new_int_var m lb ub name).2)
  | .newBoolVar name, m =>
      ((cpmodel_new_bool_var m name).1, some (cpmodel_new_bool_var m name).2)
  | .addLinearLe hs cs rhs, m => (cpmodel_add_linear_le m hs cs rhs, none)
  | .addLinearGe hs cs rhs, m => (cpmodel_add_linear_ge m hs cs rhs, none)
  | .addLinearEq hs cs rhs, m => (cpmodel_add_linear_eq m hs cs rhs, none)
  | .addAllDifferent hs, m => (cpmodel_add_all_different m hs, none)
  | .setMinimize hs cs, m => (cpmodel_minimize m hs cs, none)
  | .setMaximize hs cs, m => (cpmodel_maximize m hs cs, none)

/-- Execute a sequence of discrete-builder calls, collecting the
variable handles returned by the creation calls in order. -/
def runCpOps (m : CpModelBuilderS) : List CpOp → CpModelBuilderS × List Int
  | [] => (m, [])
  | op :: t =>
      let s := op.run m
      let rest := runCpOps s.1 t
      (rest.1, s.2.toList ++ rest.2)

/-- Number of variable-creation calls in a discrete call sequence. -/
def cpCreationCount (ops : List CpOp) : Nat := ops.countP (·.creates)

theorem CpOp.run_vars_length (op : CpOp) (m : CpModelBuilderS) :
    (op.run m).1.vars.length = m.vars.length + (if op.creates then 1 else 0) := by
  cases op <;>
    simp [CpOp.run, CpOp.creates, cpmodel_new_int_var, cpmodel_new_bool_var,
      cpmodel_add_linear_le, cpmodel_add_linear_ge, cpmodel_add_linear_eq,
      cpmodel_add_all_different, cpmodel_minimize, cpmodel_maximize]

theorem CpOp.run_handle (op : CpOp) (m : CpModelBuilderS) :
    (op.run m).2 = if op.creates then some (int32ofNat m.vars.length) else none := by
  cases op <;>
    simp [CpOp.run, CpOp.creates, cpmodel_new_int_var, cpmodel_new_bool_var,
      cpmodel_add_linear_le, cpmodel_add_linear_ge, cpmodel_add_linear_eq,
      cpmodel_add_all_different, cpmodel_minimize, cpmodel_maximize]

/-- The handles returned along a discrete call sequence are exactly the
two's-complement casts of the consecutive wrapper-vector sizes. -/
theorem runCpOps_handles (ops : List CpOp) : ∀ m : CpModelBuilderS,
    (runCpOps m ops).2
        = (List.range' m.vars.length (cpCreationCount ops)).map int32ofNat
    ∧ (runCpOps m ops).1.vars.length = m.vars.length + cpCreationCount ops := by
  induction ops with
  | nil => intro m; simp [runCpOps, cpCreationCount]
  | cons op t ih =>
      intro m
      have hlen := CpOp.run_vars_length op m
      have hh := CpOp.run_handle op m
      have iht := ih (op.run m).1
      constructor
      · show (op.run m).2.toList ++ (runCpOps (op.run m).1 t).2 = _
        rw [iht.1, hh, hlen]
        by_cases hc : op.creates
        · simp [hc, cpCreationCount, List.countP_cons, List.range'_succ]
        · simp [hc, cpCreationCount, List.countP_cons]
      · show (runCpOps (op.run m).1 t).1.vars.length = _
        rw [iht.2, hlen]
        by_cases hc : op.creates
        · simp [hc, cpCreationCount, List.countP_cons]
          try omega
        · simp [hc, cpCreationCount, List.countP_cons]

/-- One call into the linear/MIP builder's mutating interface. -/
inductive MpOp where
  | numVar (lb ub : Rat) (name : Option String)
  | intVar (lb ub : Rat) (name : Option String)
  | boolVar (name : Option String)
  | addConstraint (lb ub : Rat) (name : Option String)
  | setConstraintCoeff (constraint_idx var_idx : Int) (coeff : Rat)
  | setObjectiveCoeff (var_idx : Int) (coeff : Rat)
  | setMinimize
  | setMaximize
deriving DecidableEq, Repr

/-- Whether a linear-builder call is a variable-creation call. -/
def MpOp.createsVar : MpOp → Bool
  | .numVar _ _ _ => true
  | .intVar _ _ _ => true
  | .boolVar _ => true
  | _ => false

/-- Whether a linear-builder call is a constraint-creation call. -/
def MpOp.createsCons : MpOp → Bool
  | .addConstraint _ _ _ => true
  | _ => false

/-- Execute one linear-builder call; the two optional results are the
variable handle and the constraint handle handed back, if any. -/
def MpOp.run : MpOp → MpSolverS → MpSolverS × Option Int × Option Int
  | .numVar lb ub name, s =>
      ((mpsolver_num_var s lb ub name).1, some (mpsolver_num_var s lb ub name).2, none)
  | .intVar lb ub name, s =>
      ((mpsolver_int_var s lb ub name).1, some (mpsolver_int_var s lb ub name).2, none)
  | .boolVar name, s =>
      ((mpsolver_bool_var s name).1, some (mpsolver_bool_var s name).2, none)
  | .addConstraint lb ub name, s =>
      ((mpsolver_add_constraint s lb ub name).1, none,
        some (mpsolver_add_constraint s lb ub name).2)
  | .setConstraintCoeff ci vi c, s => (mpsolver_set_constraint_coeff s ci vi c, none, none)
  | .setObjectiveCoeff vi c, s => (mpsolver_set_objective_coeff s vi c, none, none)
  | .setMinimize, s => (mpsolver_minimize s, none, none)
  | .setMaximize, s => (mpsolver_maximize s, none, none)

/-- Execute a sequence of linear-builder calls, collecting the variable
handles and the constraint handles returned, each in order. -/
def runMpOps (s : MpSolverS) : List MpOp → MpSolverS × List Int × List Int
  | [] => (s, [], [])
  | op :: t =>
      let r := op.run s
      let rest := runMpOps r.1 t
      (rest.1, r.2.1.toList ++ rest.2.1, r.2.2.toList ++ rest.2.2)

/-- Number of variable-creation calls in a linear call sequence. -/
def mpVarCount (ops : List MpOp) : Nat := ops.countP (·.createsVar)

/-- Number of constraint-creation calls in a linear call sequence. -/
def mpConsCount (ops : List MpOp) : Nat := ops.countP (·.createsCons)

theorem MpOp.run_sizes (op : MpOp) (s : MpSolverS) :
    (op.run s).1.vars.length = s.vars.length + (if op.createsVar then 1 else 0)
    ∧ (op.run s).1.constraints.length
        = s.constraints.length + (if op.createsCons then 1 else 0) := by
  cases op <;>
    simp [MpOp.run, MpOp.createsVar, MpOp.createsCons, mpsolver_num_var,
      mpsolver_int_var, mpsolver_bool_var, mpsolver_add_constraint,
      mpsolver_set_constraint_coeff, mpsolver_set_objective_coeff,
      mpsolver_minimize, mpsolver_maximize]

theorem MpOp.run_handles (op : MpOp) (s : MpSolverS) :
    (op.run s).2.1 = (if op.createsVar then some (int32ofNat s.vars.length) else none)
    ∧ (op.run s).2.2
        = (if op.createsCons then some (int32ofNat s.constraints.length) else none) := by
  cases op <;>
    simp [MpOp.run, MpOp.createsVar, MpOp.createsCons, mpsolver_num_var,
      mpsolver_int_var, mpsolver_bool_var, mpsolver_add_constraint,
      mpsolver_set_constraint_coeff, mpsolver_set_objective_coeff,
      mpsolver_minimize, mpsolver_maximize]

/-- The variable and constraint handles returned along a linear call
sequence are the two's-complement casts of the consecutive sizes of the
two parallel wrapper vectors. -/
theorem runMpOps_handles (ops : List MpOp) : ∀ s : MpSolverS,
    (runMpOps s ops).2.1 = (List.range' s.vars.length (mpVarCount ops)).map int32ofNat
    ∧ (runMpOps s ops).2.2
        = (List.range' s.constraints.length (mpConsCount ops)).map int32ofNat
    ∧ (runMpOps s ops).1.vars.length = s.vars.length + mpVarCount ops
    ∧ (runMpOps s ops).1.constraints.length = s.constraints.length + mpConsCount ops := by
  induction ops with
  | nil => intro s; simp [runMpOps, mpVarCount, mpConsCount]
  | cons op t ih =>
      intro s
      have hsz := MpOp.run_sizes op s
      have hh := MpOp.run_handles op s
      have iht := ih (op.run s).1
      refine ⟨?_, ?_, ?_, ?_⟩
      · show (op.run s).2.1.toList ++ (runMpOps (op.run s).1 t).2.1 = _
        rw [iht.1, hh.1, hsz.1]
        by_cases hc : op.createsVar
        · simp [hc, mpVarCount, List.countP_cons, List.range'_succ]
        · simp [hc, mpVarCount, List.countP_cons]
      · show (op.run s).2.2.toList ++ (runMpOps (op.run s).1 t).2.2 = _
        rw [iht.2.1, hh.2, hsz.2]
        by_cases hc : op.createsCons
        · simp [hc, mpConsCount, List.countP_cons, List.range'_succ]
        · simp [hc, mpConsCount, List.countP_cons]
      · show (runMpOps (op.run s).1 t).1.vars.length = _
        rw [iht.2.2.1, hsz.1]
        by_cases hc : op.createsVar
        · simp [hc, mpVarCount, List.countP_cons]
          try omega
        · simp [hc, mpVarCount, List.countP_cons]
      · show (runMpOps (op.run s).1 t).1.constraints.length = _
        rw [iht.2.2.2, hsz.2]
        by_cases hc : op.createsCons
        · simp [hc, mpConsCount, List.countP_cons]
          try omega
        · simp [hc, mpConsCount, List.countP_cons]

/-- C3: the status normalizers are total functions over all native
codes: every discrete-engine native status that is not one of OPTIMAL,
FEASIBLE, INFEASIBLE, MODEL_INVALID maps to UNKNOWN, and every
linear-engine native status that is not one of OPTIMAL, FEASIBLE,
INFEASIBLE, UNBOUNDED maps to ERROR; no native code causes a failure
(both normalizers are total Lean functions on all of `Nat`). -/
theorem claim_status_normalizers_total (c : Nat) :
    (c ≠ CP_OPTIMAL → c ≠ CP_FEASIBLE → c ≠ CP_INFEASIBLE → c ≠ CP_MODEL_INVALID →
        convert_cp_status c = .UNKNOWN)
    ∧ (c ≠ MP_OPTIMAL → c ≠ MP_FEASIBLE → c ≠ MP_INFEASIBLE → c ≠ MP_UNBOUNDED →
        convert_lp_status c = .ERROR) := by
  constructor <;> intro h1 h2 h3 h4 <;>
    simp [convert_cp_status, convert_lp_status, h1, h2, h3, h4]

theorem claim_status_normalizers_total_witness :
    convert_cp_status 99 = .UNKNOWN ∧ convert_lp_status 99 = .ERROR :=
  ⟨(claim_status_normalizers_total 99).1 (by decide) (by decide) (by decide) (by decide),
   (claim_status_normalizers_total 99).2 (by decide) (by decide) (by decide) (by decide)⟩

/-- C4: the discrete normalizer never returns UNBOUNDED or ERROR and the
linear normalizer never returns MODEL_INVALID or UNKNOWN; UNBOUNDED is
reachable from the linear side and MODEL_INVALID from the discrete
side. -/
theorem claim_status_reachability_split :
    (∀ c : Nat,
        convert_cp_status c ≠ .UNBOUNDED ∧ convert_cp_status c ≠ .ERROR
        ∧ convert_lp_status c ≠ .MODEL_INVALID ∧ convert_lp_status c ≠ .UNKNOWN)
    ∧ convert_lp_status MP_UNBOUNDED = .UNBOUNDED
    ∧ convert_cp_status CP_MODEL_INVALID = .MODEL_INVALID := by
  refine ⟨fun c => ?_, by decide, by decide⟩
  unfold convert_cp_status convert_lp_status
  refine ⟨?_, ?_, ?_, ?_⟩ <;> split_ifs <;> simp

/-- C5: a wall-clock cutoff is installed in the engine parameters iff
`time_limit_seconds` is strictly positive (zero or negative yields the
unlimited default), and `cpmodel_solve` invokes the engine with exactly
those parameters. -/
theorem claim_time_limit_iff_positive (t : Rat) :
    ((cpSolveParams t).max_time_in_seconds.isSome = true ↔ 0 < t)
    ∧ ∀ (engine : CpModelProto → SatParameters → SatResponse) (m : CpModelBuilderS),
        (cpmodel_solve engine m t).2.response = engine (cpBuild m) (cpSolveParams t) := by
  constructor
  · unfold cpSolveParams
    split_ifs with h <;> simp [h]
  · intro engine m
    rfl

/-- C6: `cpmodel_solve` returns a fresh result holding its own copy of
the compiled model, leaves the builder state unchanged, and a later
solve (possibly after more builder calls) depends only on the builder
state, with no state flowing from the earlier result. -/
theorem claim_solve_fresh_result_frame
    (engine : CpModelProto → SatParameters → SatResponse)
    (m : CpModelBuilderS) (t : Rat) :
    (cpmodel_solve engine m t).1 = m
    ∧ (cpmodel_solve engine m t).2.model = cpBuild m
    ∧ ∀ (ops : List CpOp) (t2 : Rat),
        cpmodel_solve engine (runCpOps (cpmodel_solve engine m t).1 ops).1 t2
          = cpmodel_solve engine (runCpOps m ops).1 t2 :=
  ⟨rfl, rfl, fun _ _ => rfl⟩

/-- C7: for a result whose status is OPTIMAL or FEASIBLE,
`cpresponse_objective_value` returns the engine's objective value
exactly whenever that value is an integer (in the `int64` range where
the C++ double-to-int64 cast is defined): the truncating cast loses
nothing on an integral input. -/
theorem claim_objective_value_exact
    (r : CpSolverResponseS) (z : Int)
    (hst : cpresponse_status r = .OPTIMAL ∨ cpresponse_status r = .FEASIBLE)
    (hz : r.response.objective_value = (z : Rat))
    (hlo : -(2 ^ 63) ≤ z) (hhi : z < 2 ^ 63) :
    cpresponse_objective_value r = z := by
  unfold cpresponse_objective_value truncRat
  rw [hz]
  simp [Rat.num_intCast, Rat.den_intCast, Int.tdiv_one]

theorem claim_objective_value_exact_witness :
    cpresponse_objective_value
        { response := { status := 4, objective_value := 42, solution := [],
                        wall_time := 0 },
          model := { protoVars := [], constraints := [], objective := .noObjective } }
      = 42 :=
  claim_objective_value_exact _ 42 (Or.inl (by decide)) (by norm_num) (by norm_num)
    (by norm_num)

/-- C8: each of the four named selector codes yields the corresponding
backend, and any unrecognized selector falls back to the default
continuous backend (GLOP); construction is total. -/
theorem claim_backend_selector (name : Option String) (solver_type : Nat) :
    (mpsolver_new name ORTOOLS_LP_GLOP).problemType = .GLOP_LINEAR_PROGRAMMING
    ∧ (mpsolver_new name ORTOOLS_LP_CLP).problemType = .CLP_LINEAR_PROGRAMMING
    ∧ (mpsolver_new name ORTOOLS_MIP_CBC).problemType = .CBC_MIXED_INTEGER_PROGRAMMING
    ∧ (mpsolver_new name ORTOOLS_MIP_SCIP).problemType = .SCIP_MIXED_INTEGER_PROGRAMMING
    ∧ (solver_type ≠ ORTOOLS_LP_GLOP → solver_type ≠ ORTOOLS_LP_CLP →
        solver_type ≠ ORTOOLS_MIP_CBC → solver_type ≠ ORTOOLS_MIP_SCIP →
        (mpsolver_new name solver_type).problemType = .GLOP_LINEAR_PROGRAMMING) := by
  refine ⟨rfl, rfl, rfl, rfl, fun h1 h2 h3 h4 => ?_⟩
  simp [mpsolver_new, h1, h2, h3, h4]

theorem claim_backend_selector_witness :
    (mpsolver_new none 7).problemType = .GLOP_LINEAR_PROGRAMMING :=
  (claim_backend_selector none 7).2.2.2.2 (by decide) (by decide) (by decide) (by decide)

/-- C10: NULL name pointers are never dereferenced: discrete variable
creation leaves the variable unnamed on a NULL or empty name, linear
variable and constraint creation substitute the empty string for NULL,
and `mpsolver_new` substitutes `"solver"` for a NULL solver name. -/
theorem claim_null_names_safe
    (m : CpModelBuilderS) (lb ub : Int) (s : MpSolverS) (ql qu : Rat) (ty : Nat) :
    (cpmodel_new_int_var m lb ub none).1.protoVars
        = m.protoVars ++ [{ lb := lb, ub := ub, name := "" }]
    ∧ (cpmodel_new_int_var m lb ub (some "")).1.protoVars
        = m.protoVars ++ [{ lb := lb, ub := ub, name := "" }]
    ∧ (cpmodel_new_bool_var m none).1.protoVars
        = m.protoVars ++ [{ lb := 0, ub := 1, name := "" }]
    ∧ (cpmodel_new_bool_var m (some "")).1.protoVars
        = m.protoVars ++ [{ lb := 0, ub := 1, name := "" }]
    ∧ (mpsolver_num_var s ql qu none).1.vars
        = s.vars ++ [{ lb := ql, ub := qu, isInteger := false, name := "" }]
    ∧ (mpsolver_int_var s ql qu none).1.vars
        = s.vars ++ [{ lb := ql, ub := qu, isInteger := true, name := "" }]
    ∧ (mpsolver_bool_var s none).1.vars
        = s.vars ++ [{ lb := 0, ub := 1, isInteger := true, name := "" }]
    ∧ (mpsolver_add_constraint s ql qu none).1.constraints
        = s.constraints ++ [{ lb := ql, ub := qu, name := "", coeffs := [] }]
    ∧ (mpsolver_new none ty).name = "solver" := by
  refine ⟨rfl, ?_, rfl, ?_, rfl, rfl, rfl, rfl, rfl⟩ <;>
    simp [cpmodel_new_int_var, cpmodel_new_bool_var]

theorem build_linear_expr_eval (m : CpModelBuilderS) :
    ∀ (hs cs : List Int) (σ : Nat → Int),
      LinearExpr.eval σ (build_linear_expr m hs cs)
        = ∑ i in Finset.range hs.length,
            cs.getD i 0 * σ (m.vars.getD (hs.getD i 0).toNat 0)
  | [], cs, σ => by simp [build_linear_expr, LinearExpr.eval]
  | h :: t, [], σ => by simp [build_linear_expr, LinearExpr.eval]
  | h :: t, c :: ct, σ => by
      have ih := build_linear_expr_eval m t ct σ
      simp only [build_linear_expr, LinearExpr.eval, List.zip_cons_cons, List.map_cons,
        List.sum_cons, List.length_cons] at ih ⊢
      rw [Finset.sum_range_succ']
      simp only [List.getD_cons_succ, List.getD_cons_zero]
      rw [← ih]
      ring

/-- C1: for every linear constraint or objective call with equal-length
sequences of valid handles and coefficients, the expression handed to
the engine is `build_linear_expr`, whose value under any assignment is
the weighted sum over all positions `i` of `coeffs[i]` times the
variable at `handles[i]` — so a repeated handle contributes its
coefficients additively, with no deduplication. -/
theorem claim_linear_expr_weighted_sum
    (m : CpModelBuilderS) (handles coeffs : List Int) (rhs : Int)
    (hlen : handles.length = coeffs.length)
    (hvalid : ∀ h ∈ handles, 0 ≤ h ∧ h.toNat < m.vars.length) :
    (cpmodel_add_linear_le m handles coeffs rhs).constraints
        = m.constraints ++ [.linearLe (build_linear_expr m handles coeffs) rhs]
    ∧ (cpmodel_add_linear_ge m handles coeffs rhs).constraints
        = m.constraints ++ [.linearGe (build_linear_expr m handles coeffs) rhs]
    ∧ (cpmodel_add_linear_eq m handles coeffs rhs).constraints
        = m.constraints ++ [.linearEq (build_linear_expr m handles coeffs) rhs]
    ∧ (cpmodel_minimize m handles coeffs).objective
        = .minimizeE (build_linear_expr m handles coeffs)
    ∧ (cpmodel_maximize m handles coeffs).objective
        = .maximizeE (build_linear_expr m handles coeffs)
    ∧ ∀ σ : Nat → Int,
        LinearExpr.eval σ (build_linear_expr m handles coeffs)
          = ∑ i in Finset.range handles.length,
              coeffs.getD i 0 * σ (m.vars.getD (handles.getD i 0).toNat 0) :=
  ⟨rfl, rfl, rfl, rfl, rfl, fun σ => build_linear_expr_eval m handles coeffs σ⟩

theorem claim_linear_expr_weighted_sum_witness :
    LinearExpr.eval (fun n => (n : Int) + 1)
        (build_linear_expr
          { protoVars := [{ lb := 0, ub := 5, name := "" }, { lb := 0, ub := 7, name := "" }],
            constraints := [], objective := .noObjective, vars := [0, 1] }
          [0, 1, 0] [2, 3, 4])
      = 12 := by
  have h := (claim_linear_expr_weighted_sum
      { protoVars := [{ lb := 0, ub := 5, name := "" }, { lb := 0, ub := 7, name := "" }],
        constraints := [], objective := .noObjective, vars := [0, 1] }
      [0, 1, 0] [2, 3, 4] 5 (by decide) (by decide)).2.2.2.2.2 (fun n => (n : Int) + 1)
  rw [h]
  decide

theorem countP_replicate_eq {α : Type} (p : α → Bool) (n : Nat) (a : α) :
    (List.replicate n a).countP p = if p a then n else 0 := by
  induction n with
  | zero => simp
  | succ k ih =>
      rw [List.replicate_succ, List.countP_cons, ih]
      by_cases h : p a <;> simp [h] <;> omega

/-- C2 (amended): from a fresh model, the handles returned by the
variable-creation calls of any call sequence are exactly 0, 1, 2, ... in
order — and likewise for the linear model's variable handles and, in its
own parallel index space, its constraint handles — provided the number of
creations stays within `2^31` (beyond that the `int32_t` cast of the
vector size wraps negative). -/
theorem claim_handles_sequential_amended
    (cpOps : List CpOp) (hcp : cpCreationCount cpOps ≤ 2 ^ 31)
    (name : Option String) (solver_type : Nat) (mpOps : List MpOp)
    (hv : mpVarCount mpOps ≤ 2 ^ 31) (hc : mpConsCount mpOps ≤ 2 ^ 31) :
    (runCpOps cpmodel_new cpOps).2
        = (List.range (cpCreationCount cpOps)).map (fun k : Nat => (k : Int))
    ∧ (runMpOps (mpsolver_new name solver_type) mpOps).2.1
        = (List.range (mpVarCount mpOps)).map (fun k : Nat => (k : Int))
    ∧ (runMpOps (mpsolver_new name solver_type) mpOps).2.2
        = (List.range (mpConsCount mpOps)).map (fun k : Nat => (k : Int)) := by
  have h1 := (runCpOps_handles cpOps cpmodel_new).1
  have h2 := runMpOps_handles mpOps (mpsolver_new name solver_type)
  have e1 : cpmodel_new.vars.length = 0 := rfl
  have e2 : (mpsolver_new name solver_type).vars.length = 0 := rfl
  have e3 : (mpsolver_new name solver_type).constraints.length = 0 := rfl
  rw [e1] at h1
  have h2a := h2.1
  have h2b := h2.2.1
  rw [e2] at h2a
  rw [e3] at h2b
  refine ⟨?_, ?_, ?_⟩
  · rw [h1, ← List.range_eq_range']
    exact List.map_congr_left fun k hk =>
      int32ofNat_of_lt (lt_of_lt_of_le (List.mem_range.mp hk) hcp)
  · rw [h2a, ← List.range_eq_range']
    exact List.map_congr_left fun k hk =>
      int32ofNat_of_lt (lt_of_lt_of_le (List.mem_range.mp hk) hv)
  · rw [h2b, ← List.range_eq_range']
    exact List.map_congr_left fun k hk =>
      int32ofNat_of_lt (lt_of_lt_of_le (List.mem_range.mp hk) hc)

theorem claim_handles_sequential_amended_witness :
    (runCpOps cpmodel_new
        [CpOp.newIntVar 0 5 none, CpOp.newBoolVar none, CpOp.addLinearLe [0] [1] 3,
         CpOp.newIntVar 1 2 none]).2 = [0, 1, 2]
    ∧ (runMpOps (mpsolver_new none 0)
        [MpOp.numVar 0 1 none, MpOp.addConstraint 0 1 none, MpOp.boolVar none,
         MpOp.addConstraint 0 2 none]).2.1 = [0, 1]
    ∧ (runMpOps (mpsolver_new none 0)
        [MpOp.numVar 0 1 none, MpOp.addConstraint 0 1 none, MpOp.boolVar none,
         MpOp.addConstraint 0 2 none]).2.2 = [0, 1] := by
  have h := claim_handles_sequential_amended
    [CpOp.newIntVar 0 5 none, CpOp.newBoolVar none, CpOp.addLinearLe [0] [1] 3,
     CpOp.newIntVar 1 2 none] (by decide) none 0
    [MpOp.numVar 0 1 none, MpOp.addConstraint 0 1 none, MpOp.boolVar none,
     MpOp.addConstraint 0 2 none] (by decide) (by decide)
  refine ⟨?_, ?_, ?_⟩
  · rw [h.1]; decide
  · rw [h.2.1]; decide
  · rw [h.2.2]; decide

/-- C2 counterexample: the claim as stated fails without a bound on the
number of creations: starting from a fresh discrete model, the
`2^31 + 1`-st variable-creation call returns `-2^31`, not `2^31`,
because `static_cast<int32_t>(vars.size())` wraps. -/
theorem claim_handles_sequential_counterexample :
    (runCpOps cpmodel_new
        (List.replicate (2 ^ 31 + 1) (CpOp.newBoolVar none))).2.getD (2 ^ 31) 0
      = -(2 ^ 31 : Int)
    ∧ (-(2 ^ 31 : Int)) ≠ ((2 ^ 31 : Nat) : Int) := by
  have h := (runCpOps_handles
      (List.replicate (2 ^ 31 + 1) (CpOp.newBoolVar none)) cpmodel_new).1
  have hcount : cpCreationCount (List.replicate (2 ^ 31 + 1) (CpOp.newBoolVar none))
      = 2 ^ 31 + 1 := by
    unfold cpCreationCount
    rw [countP_replicate_eq]
    decide
  have e1 : cpmodel_new.vars.length = 0 := rfl
  rw [e1, hcount] at h
  constructor
  · rw [h, ← List.range_eq_range']
    rw [List.getD_eq_getElem?_getD, List.getElem?_map, List.getElem?_range (by omega)]
    show Option.getD (some (int32ofNat (2 ^ 31))) 0 = _
    unfold int32ofNat
    norm_num
  · decide

/-- C9 (amended): every handle returned by a variable- or
constraint-creation call along any call sequence from a fresh model is
non-negative, provided the number of creation calls in the relevant
index space stays within `2^31` (beyond that the `int32_t` cast of the
vector size wraps negative). -/
theorem claim_handles_nonneg_amended
    (cpOps : List CpOp) (hcp : cpCreationCount cpOps ≤ 2 ^ 31)
    (name : Option String) (solver_type : Nat) (mpOps : List MpOp)
    (hv : mpVarCount mpOps ≤ 2 ^ 31) (hc : mpConsCount mpOps ≤ 2 ^ 31) :
    (∀ h ∈ (runCpOps cpmodel_new cpOps).2, 0 ≤ h)
    ∧ (∀ h ∈ (runMpOps (mpsolver_new name solver_type) mpOps).2.1, 0 ≤ h)
    ∧ (∀ h ∈ (runMpOps (mpsolver_new name solver_type) mpOps).2.2, 0 ≤ h) := by
  have h1 := (runCpOps_handles cpOps cpmodel_new).1
  have h2 := runMpOps_handles mpOps (mpsolver_new name solver_type)
  have e1 : cpmodel_new.vars.length = 0 := rfl
  have e2 : (mpsolver_new name solver_type).vars.length = 0 := rfl
  have e3 : (mpsolver_new name solver_type).constraints.length = 0 := rfl
  rw [e1] at h1
  have h2a := h2.1
  have h2b := h2.2.1
  rw [e2] at h2a
  rw [e3] at h2b
  refine ⟨?_, ?_, ?_⟩
  · intro h hmem
    rw [h1] at hmem
    obtain ⟨k, hk, rfl⟩ := List.mem_map.mp hmem
    have hkN : k < cpCreationCount cpOps := by
      have := List.mem_range'_1.mp hk
      omega
    rw [int32ofNat_of_lt (lt_of_lt_of_le hkN hcp)]
    exact Int.natCast_nonneg k
  · intro h hmem
    rw [h2a] at hmem
    obtain ⟨k, hk, rfl⟩ := List.mem_map.mp hmem
    have hkN : k < mpVarCount mpOps := by
      have := List.mem_range'_1.mp hk
      omega
    rw [int32ofNat_of_lt (lt_of_lt_of_le hkN hv)]
    exact Int.natCast_nonneg k
  · intro h hmem
    rw [h2b] at hmem
    obtain ⟨k, hk, rfl⟩ := List.mem_map.mp hmem
    have hkN : k < mpConsCount mpOps := by
      have := List.mem_range'_1.mp hk
      omega
    rw [int32ofNat_of_lt (lt_of_lt_of_le hkN hc)]
    exact Int.natCast_nonneg k

theorem claim_handles_nonneg_amended_witness :
    (∀ h ∈ (runCpOps cpmodel_new [CpOp.newIntVar 0 3 none, CpOp.newBoolVar none]).2,
        0 ≤ h)
    ∧ (∀ h ∈ (runMpOps (mpsolver_new none 0)
        [MpOp.numVar 0 1 none, MpOp.addConstraint 0 1 none]).2.1, 0 ≤ h)
    ∧ (∀ h ∈ (runMpOps (mpsolver_new none 0)
        [MpOp.numVar 0 1 none, MpOp.addConstraint 0 1 none]).2.2, 0 ≤ h) :=
  claim_handles_nonneg_amended [CpOp.newIntVar 0 3 none, CpOp.newBoolVar none]
    (by decide) none 0 [MpOp.numVar 0 1 none, MpOp.addConstraint 0 1 none]
    (by decide) (by decide)

/-- C9 counterexample: without the `2^31` bound the claim fails: after
`2^31` variable creations on a fresh linear model, the next
`mpsolver_num_var` call returns the negative handle `-2^31`, because
`static_cast<int32_t>(variables.size())` wraps. -/
theorem claim_handles_nonneg_counterexample :
    (runMpOps (mpsolver_new none 0)
        (List.replicate (2 ^ 31 + 1) (MpOp.numVar 0 1 none))).2.1.getD (2 ^ 31) 0
      < 0 := by
  have h := (runMpOps_handles (List.replicate (2 ^ 31 + 1) (MpOp.numVar 0 1 none))
      (mpsolver_new none 0)).1
  have hcount : mpVarCount (List.replicate (2 ^ 31 + 1) (MpOp.numVar 0 1 none))
      = 2 ^ 31 + 1 := by
    unfold mpVarCount
    rw [countP_replicate_eq]
    decide
  have e2 : (mpsolver_new none 0).vars.length = 0 := rfl
  rw [e2, hcount] at h
  rw [h, ← List.range_eq_range']
  rw [List.getD_eq_getElem?_getD, List.getElem?_map, List.getElem?_range (by omega)]
  show Option.getD (some (int32ofNat (2 ^ 31))) 0 < 0
  unfold int32ofNat
  norm_num
